import Mathlib

/-!
Verification of the agent-skills flow interpreter (engine.py and
executors/base.py) against its natural-language specification.

Strings are modelled as lists of characters so that the small string
operations the interpreter performs (substring search, first-occurrence
splitting, trimming, quote stripping, dot splitting, token interpolation)
can be defined by structural recursion and reasoned about directly.
Python runtime values that flow through requests, step outputs and
contexts are modelled by the inductive type `Val` (null, bool, int,
string, list, dict); floating point values are not needed by any claim
and are not modelled.  Wall-clock timing and logging are not modelled:
latency fields are fixed at zero.
-/

namespace AgentSkills

/-- Shorthand turning a Lean string literal into the character-list model. -/
def strL (s : String) : List Char := s.toList

/-- The dollar character. -/
def chDollar : Char := Char.ofNat 36

/-- The opening brace character. -/
def chLB : Char := Char.ofNat 123

/-- The closing brace character. -/
def chRB : Char := Char.ofNat 125

/-- The single-quote character. -/
def chSQ : Char := Char.ofNat 39

/-- The double-quote character. -/
def chDQ : Char := Char.ofNat 34

/-- Whitespace in the sense of Python str.strip(). -/
def isPyWs (c : Char) : Bool :=
  (c == Char.ofNat 32) || (c == Char.ofNat 9) || (c == Char.ofNat 10) ||
  (c == Char.ofNat 13) || (c == Char.ofNat 11) || (c == Char.ofNat 12)

/-- Drop characters satisfying p from both ends of a list. -/
def stripEnds (p : Char → Bool) (s : List Char) : List Char :=
  ((s.dropWhile p).reverse.dropWhile p).reverse

/-- Python str.strip(): trim whitespace from both ends. -/
def pyTrim (s : List Char) : List Char := stripEnds isPyWs s

/-- Python str.strip(c): trim a given character from both ends. -/
def stripCh (c : Char) (s : List Char) : List Char := stripEnds (fun x => x == c) s

/-- Split at the first occurrence of needle: some (before, after), or none
when the needle does not occur.  Matches Python s.split(needle, 1). -/
def splitFirst (needle : List Char) : List Char → Option (List Char × List Char)
  | [] => if needle.isEmpty then some ([], []) else none
  | c :: rest =>
    if needle.isPrefixOf (c :: rest) then some ([], (c :: rest).drop needle.length)
    else
      match splitFirst needle rest with
      | some (a, b) => some (c :: a, b)
      | none => none

/-- Python substring containment: needle in s. -/
def containsSub (s needle : List Char) : Bool := (splitFirst needle s).isSome

/-- Python s.split(needle)[0]: text before the first occurrence of the
needle, or the whole string when the needle is absent. -/
def beforeFirst (s needle : List Char) : List Char :=
  match splitFirst needle s with
  | some (a, _) => a
  | none => s

/-- Text after the first occurrence of the needle (empty when absent). -/
def afterFirst (s needle : List Char) : List Char :=
  match splitFirst needle s with
  | some (_, b) => b
  | none => []

/-- Python s.split(c): split on every occurrence of a separator character,
keeping empty groups; the result is never the empty list. -/
def pySplitCh (s : List Char) (c : Char) : List (List Char) :=
  s.foldr
    (fun ch acc =>
      match acc with
      | [] => [[ch]]
      | g :: rest => if ch == c then [] :: g :: rest else (ch :: g) :: rest)
    [[]]

/-- Python runtime values appearing in requests, inputs and outputs. -/
inductive Val where
  | vnone : Val
  | vbool : Bool → Val
  | vint : Int → Val
  | vstr : List Char → Val
  | vlist : List Val → Val
  | vdict : List (List Char × Val) → Val

/-- Python `x is None`. -/
def vIsNone : Val → Bool
  | Val.vnone => true
  | _ => false

/-- Python equality between an optional value and a string literal: only a
string value can compare equal to a string. -/
def optValEqStr (o : Option Val) (s : List Char) : Bool :=
  match o with
  | some (Val.vstr t) => t == s
  | _ => false

/-- First-match association-list lookup, the model of Python dict access. -/
def assocGet {α : Type} (m : List (List Char × α)) (k : List Char) : Option α :=
  match m with
  | [] => none
  | (k2, v) :: rest => if k2 = k then some v else assocGet rest k

/-- Python `k in d` for a dict. -/
def assocContains {α : Type} (m : List (List Char × α)) (k : List Char) : Bool :=
  (assocGet m k).isSome

/-- Python `d[k] = v`: replace the existing binding in place, else append. -/
def assocSet {α : Type} (m : List (List Char × α)) (k : List Char) (v : α) :
    List (List Char × α) :=
  match m with
  | [] => [(k, v)]
  | (k2, v2) :: rest => if k2 = k then (k, v) :: rest else (k2, v2) :: assocSet rest k v

/-- Python truthiness of a value. -/
def truthy : Val → Bool
  | Val.vnone => false
  | Val.vbool b => b
  | Val.vint i => !(i == 0)
  | Val.vstr s => !s.isEmpty
  | Val.vlist xs => !xs.isEmpty
  | Val.vdict d => !d.isEmpty

/-- Decimal rendering of an integer, as Python str(int). -/
def pyIntStr (i : Int) : List Char :=
  match i with
  | Int.ofNat n => Nat.toDigits 10 n
  | Int.negSucc n => Char.ofNat 45 :: Nat.toDigits 10 (n + 1)

mutual

/-- Python repr() of a value.  String escaping inside repr is not modelled:
strings are rendered between single quotes verbatim, which coincides with
Python for strings free of quotes and backslashes. -/
def pyRepr : Val → List Char
  | Val.vnone => strL "None"
  | Val.vbool true => strL "True"
  | Val.vbool false => strL "False"
  | Val.vint i => pyIntStr i
  | Val.vstr s => chSQ :: (s ++ [chSQ])
  | Val.vlist xs => Char.ofNat 91 :: (pyReprItems xs ++ [Char.ofNat 93])
  | Val.vdict d => chLB :: (pyReprPairs d ++ [chRB])

/-- Comma-separated repr of list elements. -/
def pyReprItems : List Val → List Char
  | [] => []
  | [x] => pyRepr x
  | x :: y :: rest => pyRepr x ++ Char.ofNat 44 :: Char.ofNat 32 :: pyReprItems (y :: rest)

/-- Comma-separated repr of dict entries. -/
def pyReprPairs : List (List Char × Val) → List Char
  | [] => []
  | [(k, v)] => (chSQ :: (k ++ [chSQ])) ++ Char.ofNat 58 :: Char.ofNat 32 :: pyRepr v
  | (k, v) :: p :: rest =>
    (chSQ :: (k ++ [chSQ])) ++ Char.ofNat 58 :: Char.ofNat 32 :: pyRepr v ++
      Char.ofNat 44 :: Char.ofNat 32 :: pyReprPairs (p :: rest)

end

/-- Python str() of a value: identity on strings, repr otherwise. -/
def pyStr : Val → List Char
  | Val.vstr s => s
  | v => pyRepr v

/-- Strip a surrounding reference wrapper, as in FlowEngine resolve
reference: when the text starts with a dollar-brace and ends with a
closing brace, keep only the inner path. -/
def stripBraces (ref : List Char) : List Char :=
  if (chDollar :: [chLB]).isPrefixOf ref && (ref.getLast? == some chRB) then
    (ref.drop 2).dropLast
  else ref

/-- The dotted-path traversal loop of FlowEngine resolve reference: at
each segment the current value must be a dict containing the segment,
otherwise resolution stops with null. -/
def travVal : Val → List (List Char) → Val
  | v, [] => v
  | Val.vdict d, p :: ps =>
    match assocGet d p with
    | some v => travVal v ps
    | none => Val.vnone
  | _, _ :: _ => Val.vnone

/-- FlowEngine resolve reference.  The context is the engine dict holding
the request payload and the per-step records.  A first segment naming a
top-level context key walks the whole path from the context; a first
segment naming a recorded step walks the remaining path from that step
record; anything else resolves to null.  The engine always stores a dict
under the steps key, so the non-dict steps case (which real Python could
only reach with a hand-built context) resolves to null here. -/
def resolveReference (ref : List Char) (ctx : List (List Char × Val)) : Val :=
  let path := stripBraces ref
  let parts := pySplitCh path (Char.ofNat 46)
  match parts with
  | [] => Val.vnone
  | first :: rest =>
    if assocContains ctx first then travVal (Val.vdict ctx) parts
    else
      match assocGet ctx (strL "steps") with
      | some (Val.vdict sd) =>
        match assocGet sd first with
        | some cur => travVal cur rest
        | none => Val.vnone
      | _ => Val.vnone

/-- Scanner for FlowEngine resolve string vars: replaces every maximal
dollar-brace token (at least one character, up to the first closing
brace) with the str() of its resolved value, keeping the literal token
when the reference resolves to null.  Fuel bounds the scan; one unit per
consumed character is always enough. -/
def interpAux (ctx : List (List Char × Val)) : Nat → List Char → List Char
  | 0, s => s
  | _ + 1, [] => []
  | n + 1, c :: rest =>
    if c == chDollar then
      match rest with
      | [] => [c]
      | lb :: rest2 =>
        if lb == chLB then
          let inner := rest2.takeWhile (fun ch => !(ch == chRB))
          if !inner.isEmpty && inner.length < rest2.length then
            let tok := chDollar :: chLB :: (inner ++ [chRB])
            let v := resolveReference tok ctx
            (match v with
             | Val.vnone => tok
             | v2 => pyStr v2) ++ interpAux ctx n (rest2.drop (inner.length + 1))
          else c :: interpAux ctx n rest
        else c :: interpAux ctx n rest
    else c :: interpAux ctx n rest

/-- FlowEngine resolve string vars. -/
def resolveStringVars (s : List Char) (ctx : List (List Char × Val)) : List Char :=
  interpAux ctx (s.length + 1) s

/-- Both-side cleanup used by the comparison branch of the condition
evaluator: strip whitespace, then double quotes, then single quotes. -/
def cleanSide (s : List Char) : List Char := stripCh chSQ (stripCh chDQ (pyTrim s))

/-- The except-clause of FlowEngine evaluate condition: any raised error
is downgraded to false. -/
def catchFalse (e : Except Unit Bool) : Bool :=
  match e with
  | Except.ok b => b
  | Except.error _ => false

/-- The try-body of FlowEngine evaluate condition.  All the operations it
performs are total, so the only modelled exception is the Python
recursion limit on the not-branch, represented by the fuel reaching
zero.  Branches, in source order: the emptiness checks re-resolve the
raw left side of the original condition text; the comparisons split the
substituted text once on the first operator occurrence and compare the
cleaned sides; a leading not recursively evaluates (through the catching
wrapper, exactly as the source calls itself) and negates; otherwise the
substituted text is coerced to its truthiness as a string. -/
def evalCondTry (ctx : List (List Char × Val)) : Nat → List Char → Except Unit Bool
  | 0, _ => Except.error ()
  | n + 1, cond =>
    let resolved := resolveStringVars cond ctx
    if containsSub resolved (strL "is empty") then
      Except.ok
        (match resolveReference (pyTrim (beforeFirst cond (strL "is empty"))) ctx with
         | Val.vlist xs => xs.isEmpty
         | Val.vdict d => d.isEmpty
         | v => !truthy v)
    else if containsSub resolved (strL "is not empty") then
      Except.ok
        (match resolveReference (pyTrim (beforeFirst cond (strL "is not empty"))) ctx with
         | Val.vlist xs => !xs.isEmpty
         | Val.vdict d => !d.isEmpty
         | v => truthy v)
    else if containsSub resolved (strL "!=") then
      Except.ok
        (decide (cleanSide (beforeFirst resolved (strL "!=")) ≠
                 cleanSide (afterFirst resolved (strL "!="))))
    else if containsSub resolved (strL "==") then
      Except.ok
        (decide (cleanSide (beforeFirst resolved (strL "==")) =
                 cleanSide (afterFirst resolved (strL "=="))))
    else if (strL "not ").isPrefixOf (pyTrim resolved) then
      Except.ok (!(catchFalse (evalCondTry ctx n ((pyTrim resolved).drop 4))))
    else
      Except.ok (!resolved.isEmpty)

/-- FlowEngine evaluate condition: the try-body under the fail-closed
except clause. -/
def evalCond (fuel : Nat) (cond : List Char) (ctx : List (List Char × Val)) : Bool :=
  catchFalse (evalCondTry ctx fuel cond)

/-! Data model: the pydantic models from models.py that the executor
lifecycle and the engine read.  Provider configuration, descriptions and
version numbers play no role in any verified behavior and are kept as
plain data fields where they are read at all. -/

/-- SkillStatus from models.py. -/
inductive SkillStatus where
  | success : SkillStatus
  | failure : SkillStatus
  | skipped : SkillStatus
  | timeout : SkillStatus
  | no_data : SkillStatus
deriving DecidableEq

/-- The .value string of a status, as written into the context. -/
def statusStr : SkillStatus → List Char
  | SkillStatus.success => strL "success"
  | SkillStatus.failure => strL "failure"
  | SkillStatus.skipped => strL "skipped"
  | SkillStatus.timeout => strL "timeout"
  | SkillStatus.no_data => strL "no_data"

/-- FallbackStrategy from models.py. -/
inductive FallbackStrategy where
  | passthrough : FallbackStrategy
  | default_value : FallbackStrategy
  | skip : FallbackStrategy
deriving DecidableEq

/-- FallbackConfig from models.py.  The optional default value uses vnone
for the pydantic None default. -/
structure FallbackConfig where
  strategy : FallbackStrategy := FallbackStrategy.skip
  passthrough_field : Option (List Char) := none
  default_value : Val := Val.vnone

/-- FieldSchema from models.py. -/
structure FieldSchema where
  name : List Char
  type : List Char := strL "string"
  required : Bool := true
  default : Val := Val.vnone

/-- SkillManifest from models.py, restricted to the fields the executor
lifecycle and the engine read (provider config is consulted only inside
concrete executor bodies, which are external collaborators here). -/
structure SkillManifest where
  skill_id : List Char
  name : List Char
  input_schema : List FieldSchema := []
  output_schema : List FieldSchema := []
  fallback : FallbackConfig := {}
  tags : List (List Char) := []
  mock_enabled : Bool := true

/-- SkillResult from models.py.  Latency is not modelled and stays zero. -/
structure SkillResult where
  skill_id : List Char
  step_id : List Char
  status : SkillStatus
  output : List (List Char × Val) := []
  error : Option (List Char) := none
  latency_ms : Nat := 0
  metadata : List (List Char × Val) := []

/-- A failure signal from a concrete executor body: either a TimeoutError
or any other exception, each carrying its message. -/
inductive PyExc where
  | timeoutErr : List Char → PyExc
  | exc : List Char → PyExc

/-- The error text the execute lifecycle attaches for a given exception. -/
def excText : PyExc → List Char
  | PyExc.timeoutErr m => strL "Timeout: " ++ m
  | PyExc.exc m => m

/-- Truthiness of the optional passthrough field: None and the empty
string are both falsy in the fallback dispatch. -/
def pfTruthy : Option (List Char) → Bool
  | none => false
  | some s => !s.isEmpty

namespace BaseExecutor

/-- BaseExecutor validate inputs: the first declared input field that is
required but absent from the inputs yields the missing-input message. -/
def validateInputs (fields : List FieldSchema) (inputs : List (List Char × Val)) :
    Option (List Char) :=
  match fields with
  | [] => none
  | f :: rest =>
    if f.required && !(assocContains inputs f.name) then
      some (strL "Missing required input: " ++ f.name)
    else validateInputs rest inputs

/-- The name of the first declared input field that is required but
missing, used to relate the validation message to the field it names. -/
def firstMissingRequired (fields : List FieldSchema) (inputs : List (List Char × Val)) :
    Option (List Char) :=
  match fields with
  | [] => none
  | f :: rest =>
    if f.required && !(assocContains inputs f.name) then some f.name
    else firstMissingRequired rest inputs

/-- Wrapping of a configured default value: a dict is used as the output
directly, anything else goes under the result key. -/
def dvWrap (v : Val) : List (List Char × Val) :=
  match v with
  | Val.vdict d => d
  | w => [(strL "result", w)]

/-- BaseExecutor handle fallback: dispatch on the manifest strategy, with
the Python if/elif/else falling through to the skip default whenever the
passthrough field is falsy or the default value is None. -/
def handleFallback (m : SkillManifest) (step_id err : List Char) : SkillResult :=
  if m.fallback.strategy = FallbackStrategy.passthrough &&
      pfTruthy m.fallback.passthrough_field then
    { skill_id := m.skill_id, step_id := step_id, status := SkillStatus.failure,
      output := [(strL "_fallback", Val.vstr (strL "passthrough")),
                 (strL "_field", Val.vstr (m.fallback.passthrough_field.getD []))],
      error := some err, latency_ms := 0,
      metadata := [(strL "fallback_strategy", Val.vstr (strL "passthrough"))] }
  else if m.fallback.strategy = FallbackStrategy.default_value &&
      !vIsNone m.fallback.default_value then
    { skill_id := m.skill_id, step_id := step_id, status := SkillStatus.failure,
      output := dvWrap m.fallback.default_value,
      error := some err, latency_ms := 0,
      metadata := [(strL "fallback_strategy", Val.vstr (strL "default_value"))] }
  else
    { skill_id := m.skill_id, step_id := step_id, status := SkillStatus.skipped,
      output := [],
      error := some err, latency_ms := 0,
      metadata := [(strL "fallback_strategy", Val.vstr (strL "skip"))] }

/-- The default mock body of BaseExecutor: each declared output field
mapped to its configured default. -/
def defaultMock (m : SkillManifest) (_inputs : List (List Char × Val)) :
    Except PyExc (List (List Char × Val)) :=
  Except.ok (m.output_schema.map (fun f => (f.name, f.default)))

/-- BaseExecutor execute: validate, dispatch to the mock body when mock
mode is on and the manifest opts in (else the real body), wrap a
successful output, and route any failure signal through the fallback.
The concrete executor bodies are parameters: a subclass supplies its
real body and optionally overrides the mock body. -/
def execute (m : SkillManifest)
    (impl mock : List (List Char × Val) → Except PyExc (List (List Char × Val)))
    (inputs : List (List Char × Val)) (step_id : List Char) (mock_mode : Bool) :
    SkillResult :=
  match validateInputs m.input_schema inputs with
  | some verr => handleFallback m step_id verr
  | none =>
    match (if mock_mode && m.mock_enabled then mock inputs else impl inputs) with
    | Except.ok output =>
      { skill_id := m.skill_id, step_id := step_id, status := SkillStatus.success,
        output := output, error := none, latency_ms := 0, metadata := [] }
    | Except.error e => handleFallback m step_id (excText e)

end BaseExecutor

/-! The flow data model and the orchestration loop of engine.py. -/

/-- StepInput from models.py. -/
structure StepInput where
  field : List Char
  value : Val := Val.vnone
  reference : Option (List Char) := none

/-- FlowStep from models.py (the parallel grouping hint is declared but
never read by the engine). -/
structure FlowStep where
  skill : List Char
  id : List Char
  inputs : List StepInput := []
  condition : Option (List Char) := none

/-- ResponseMapping from models.py. -/
structure ResponseMapping where
  field : List Char
  reference : Option (List Char) := none
  default : Val := Val.vnone

/-- DisplayConfig from models.py: a display blob the engine passes
through unchanged. -/
structure DisplayConfig where
  type : List Char := strL "inline"
  show_answer : Bool := true
  results_format : List Char := strL "cards"
  show_sources : Bool := true
  show_rewritten_query : Bool := true
  show_follow_up : Bool := false
deriving DecidableEq

/-- FlowDefinition from models.py. -/
structure FlowDefinition where
  flow_id : List Char
  name : List Char
  steps : List FlowStep := []
  response : List ResponseMapping := []
  display : DisplayConfig := {}
  tags : List (List Char) := []

/-- FlowResult from models.py.  Total latency is not modelled. -/
structure FlowResult where
  flow_id : List Char
  status : SkillStatus
  response : List (List Char × Val) := []
  step_results : List (List Char × SkillResult) := []
  total_latency_ms : Nat := 0
  display : Option DisplayConfig := none
  error : Option (List Char) := none

/-- SkillRegistry: the per-id lookup tables populated by the loader. -/
structure SkillRegistry where
  skills : List (List Char × SkillManifest) := []
  flows : List (List Char × FlowDefinition) := []

/-- Registry lookup of a manifest by skill id. -/
def SkillRegistry.get_skill (r : SkillRegistry) (id : List Char) : Option SkillManifest :=
  assocGet r.skills id

/-- Registry lookup of a flow definition by flow id. -/
def SkillRegistry.get_flow (r : SkillRegistry) (id : List Char) : Option FlowDefinition :=
  assocGet r.flows id

/-- The concrete executor bodies behind EXECUTOR MAP: for each manifest,
the real body and the mock body a subclass exposes.  Executor instances
carry no other observable state, so the create-once instance cache of
the engine has no observable effect and is not modelled. -/
structure ExecBehavior where
  impl : SkillManifest → List (List Char × Val) → Except PyExc (List (List Char × Val))
  mock : SkillManifest → List (List Char × Val) → Except PyExc (List (List Char × Val))

namespace FlowEngine

/-- The engine context dict for a given request payload and per-step
record table. -/
def mkCtx (request stepsCtx : List (List Char × Val)) : List (List Char × Val) :=
  [(strL "request", Val.vdict request), (strL "steps", Val.vdict stepsCtx)]

/-- FlowEngine resolve step inputs: a truthy reference binding resolves
through the grammar, otherwise the literal value is used; a string value
then has its embedded tokens interpolated. -/
def resolveStepInputs (step : FlowStep) (ctx : List (List Char × Val)) :
    List (List Char × Val) :=
  step.inputs.foldl
    (fun acc si =>
      let v0 :=
        match si.reference with
        | some r => if r.isEmpty then si.value else resolveReference r ctx
        | none => si.value
      let v :=
        match v0 with
        | Val.vstr s => Val.vstr (resolveStringVars s ctx)
        | w => w
      assocSet acc si.field v)
    []

/-- The step-skipping test of the orchestration loop: a truthy condition
string that evaluates to false. -/
def stepSkipped (fuel : Nat) (step : FlowStep) (ctx : List (List Char × Val)) : Bool :=
  match step.condition with
  | some c => !c.isEmpty && !(evalCond fuel c ctx)
  | none => false

/-- The context record written for a step whose condition was not met. -/
def skippedEntry : Val :=
  Val.vdict [(strL "output", Val.vdict []), (strL "status", Val.vstr (strL "skipped"))]

/-- The first declared output field of a manifest, or the generic result
key when none is declared. -/
def firstOutputField (m : SkillManifest) : List Char :=
  match m.output_schema with
  | [] => strL "result"
  | f :: _ => f.name

/-- Phase two of the passthrough fallback, performed by the engine after
the invocation returns: a failed result carrying the passthrough marker
has its output replaced by the first declared output field bound to the
named resolved input, when that input is present. -/
def applyPassthrough (m : SkillManifest) (resolved : List (List Char × Val))
    (result : SkillResult) : SkillResult :=
  if result.status = SkillStatus.failure &&
      optValEqStr (assocGet result.output (strL "_fallback")) (strL "passthrough") then
    match (assocGet result.output (strL "_field")).getD (Val.vstr []) with
    | Val.vstr f =>
      if assocContains resolved f then
        { result with output := [(firstOutputField m, (assocGet resolved f).getD Val.vnone)] }
      else result
    | _ => result
  else result

/-- One iteration of the orchestration loop: skip on an unmet condition,
fail on an unknown skill, otherwise invoke through the lifecycle and
apply passthrough phase two; in every case record the result under the
step id in both the result table and the context. -/
def procStep (reg : SkillRegistry) (beh : ExecBehavior) (fuel : Nat) (mock_mode : Bool)
    (request : List (List Char × Val))
    (acc : List (List Char × SkillResult) × List (List Char × Val)) (step : FlowStep) :
    List (List Char × SkillResult) × List (List Char × Val) :=
  let results := acc.fst
  let stepsCtx := acc.snd
  let ctx := mkCtx request stepsCtx
  if stepSkipped fuel step ctx then
    (assocSet results step.id
       { skill_id := step.skill, step_id := step.id, status := SkillStatus.skipped,
         output := [], error := none, latency_ms := 0,
         metadata := [(strL "reason", Val.vstr (strL "condition_not_met"))] },
     assocSet stepsCtx step.id skippedEntry)
  else
    let resolved := resolveStepInputs step ctx
    match reg.get_skill step.skill with
    | none =>
      (assocSet results step.id
         { skill_id := step.skill, step_id := step.id, status := SkillStatus.failure,
           output := [], error := some (strL "Skill not found: " ++ step.skill),
           latency_ms := 0, metadata := [] },
       assocSet stepsCtx step.id
         (Val.vdict [(strL "output", Val.vdict []),
                     (strL "status", Val.vstr (strL "failure"))]))
    | some skill =>
      let result := applyPassthrough skill resolved
        (BaseExecutor.execute skill (beh.impl skill) (beh.mock skill) resolved step.id mock_mode)
      (assocSet results step.id result,
       assocSet stepsCtx step.id
         (Val.vdict [(strL "output", Val.vdict result.output),
                     (strL "status", Val.vstr (statusStr result.status))]))

/-- FlowEngine build response: each mapping with a truthy reference
resolves it against the final context and substitutes its default for a
null result; a mapping without a reference yields its default. -/
def buildResponse (flow : FlowDefinition) (ctx : List (List Char × Val)) :
    List (List Char × Val) :=
  flow.response.foldl
    (fun acc mp =>
      match mp.reference with
      | some r =>
        if r.isEmpty then assocSet acc mp.field mp.default
        else
          let v := resolveReference r ctx
          assocSet acc mp.field (if vIsNone v then mp.default else v)
      | none => assocSet acc mp.field mp.default)
    []

/-- FlowEngine execute flow: resolve the effective mock flag, look up the
flow (absent yields the immediate failure result), fold the step loop
over the declared step order, build the response from the final context,
and return the success-status flow result. -/
def execute_flow (reg : SkillRegistry) (beh : ExecBehavior) (fuel : Nat)
    (flow_id : List Char) (request : List (List Char × Val))
    (mock_mode : Option Bool) (envMockDefault : Bool) : FlowResult :=
  let mm := mock_mode.getD envMockDefault
  match reg.get_flow flow_id with
  | none =>
    { flow_id := flow_id, status := SkillStatus.failure,
      error := some (strL "Flow not found: " ++ flow_id) }
  | some flow =>
    let folded := flow.steps.foldl (procStep reg beh fuel mm request) ([], [])
    { flow_id := flow_id, status := SkillStatus.success,
      response := buildResponse flow (mkCtx request folded.snd),
      step_results := folded.fst, total_latency_ms := 0,
      display := some flow.display, error := none }

end FlowEngine

/-! Helper lemmas shared by the claim theorems. -/

theorem assocGet_assocSet_self {α : Type} (m : List (List Char × α)) (k : List Char) (v : α) :
    assocGet (assocSet m k v) k = some v := by
  induction m with
  | nil => simp [assocSet, assocGet]
  | cons p rest ih =>
    obtain ⟨k2, v2⟩ := p
    by_cases h : k2 = k
    · simp [assocSet, assocGet, h]
    · simp [assocSet, assocGet, h, ih]

theorem assocContains_assocSet_self {α : Type} (m : List (List Char × α)) (k : List Char)
    (v : α) : assocContains (assocSet m k v) k = true := by
  simp [assocContains, assocGet_assocSet_self]

theorem assocContains_assocSet_mono {α : Type} (m : List (List Char × α)) (k k2 : List Char)
    (v : α) (h : assocContains m k2 = true) : assocContains (assocSet m k v) k2 = true := by
  induction m with
  | nil => simp [assocContains, assocGet] at h
  | cons p rest ih =>
    obtain ⟨k3, v3⟩ := p
    by_cases h3 : k3 = k
    · subst h3
      simp only [assocSet, if_pos rfl]
      by_cases h2 : k3 = k2
      · subst h2
        simp [assocContains, assocGet]
      · simp [assocContains, assocGet, h2] at h
        simp [assocContains, assocGet, h2, h]
    · simp only [assocSet, if_neg h3]
      by_cases h2 : k3 = k2
      · subst h2
        simp [assocContains, assocGet]
      · simp [assocContains, assocGet, h2] at h
        simp [assocContains, assocGet, h2]
        exact ih h

theorem validateInputs_eq_firstMissing (fields : List FieldSchema)
    (inputs : List (List Char × Val)) :
    BaseExecutor.validateInputs fields inputs =
      (BaseExecutor.firstMissingRequired fields inputs).map
        (fun n => strL "Missing required input: " ++ n) := by
  induction fields with
  | nil => rfl
  | cons f rest ih =>
    by_cases h : (f.required && !(assocContains inputs f.name)) = true
    · simp [BaseExecutor.validateInputs, BaseExecutor.firstMissingRequired, h]
    · simp only [Bool.not_eq_true] at h
      simp [BaseExecutor.validateInputs, BaseExecutor.firstMissingRequired, h, ih]

/-- Whether the handle-fallback dispatch lands in a failure-status branch
(passthrough with a truthy field, or default value with a non-null
default) rather than falling through to the skipped-status default. -/
def fallbackYieldsFailure (fb : FallbackConfig) : Bool :=
  (fb.strategy = FallbackStrategy.passthrough && pfTruthy fb.passthrough_field) ||
  (fb.strategy = FallbackStrategy.default_value && !vIsNone fb.default_value)

theorem handleFallback_error (m : SkillManifest) (sid e : List Char) :
    (BaseExecutor.handleFallback m sid e).error = some e := by
  unfold BaseExecutor.handleFallback
  split <;> first | rfl | (split <;> rfl)

theorem handleFallback_status (m : SkillManifest) (sid e : List Char) :
    (BaseExecutor.handleFallback m sid e).status =
      (if fallbackYieldsFailure m.fallback then SkillStatus.failure else SkillStatus.skipped) := by
  unfold BaseExecutor.handleFallback fallbackYieldsFailure
  cases h1 : (m.fallback.strategy = FallbackStrategy.passthrough &&
      pfTruthy m.fallback.passthrough_field) with
  | true => simp [h1]
  | false =>
    cases h2 : (m.fallback.strategy = FallbackStrategy.default_value &&
        !vIsNone m.fallback.default_value) with
    | true => simp [h1, h2]
    | false => simp [h1, h2]

theorem execute_of_validation_failure (m : SkillManifest)
    (impl mock : List (List Char × Val) → Except PyExc (List (List Char × Val)))
    (inputs : List (List Char × Val)) (sid : List Char) (mm : Bool) (e : List Char)
    (h : BaseExecutor.validateInputs m.input_schema inputs = some e) :
    BaseExecutor.execute m impl mock inputs sid mm = BaseExecutor.handleFallback m sid e := by
  unfold BaseExecutor.execute
  rw [h]

theorem execute_of_dispatch_failure (m : SkillManifest) (e : PyExc)
    (inputs : List (List Char × Val)) (sid : List Char) (mm : Bool)
    (h : BaseExecutor.validateInputs m.input_schema inputs = none) :
    BaseExecutor.execute m (fun _ => Except.error e) (fun _ => Except.error e) inputs sid mm =
      BaseExecutor.handleFallback m sid (excText e) := by
  unfold BaseExecutor.execute
  rw [h]
  cases mm && m.mock_enabled <;> rfl

/-! Claim theorems. -/

/-- C1 (amended): invoking a capability whose manifest requires a field
absent from the inputs returns a result whose error text names the first
missing required field and whose status is decided by the manifest
fallback: Failure under Passthrough with a truthy field or DefaultValue
with a non-null default, Skipped otherwise (in particular under the
default Skip strategy). -/
theorem claim1_missing_input (m : SkillManifest)
    (impl mock : List (List Char × Val) → Except PyExc (List (List Char × Val)))
    (inputs : List (List Char × Val)) (sid : List Char) (mm : Bool) (fname : List Char)
    (h : BaseExecutor.firstMissingRequired m.input_schema inputs = some fname) :
    (BaseExecutor.execute m impl mock inputs sid mm).error =
        some (strL "Missing required input: " ++ fname) ∧
    (BaseExecutor.execute m impl mock inputs sid mm).status =
        (if fallbackYieldsFailure m.fallback then SkillStatus.failure
         else SkillStatus.skipped) := by
  have hv : BaseExecutor.validateInputs m.input_schema inputs =
      some (strL "Missing required input: " ++ fname) := by
    rw [validateInputs_eq_firstMissing, h]
    rfl
  rw [execute_of_validation_failure m impl mock inputs sid mm _ hv]
  exact ⟨handleFallback_error m sid _, handleFallback_status m sid _⟩

/-- C1 witness: the amended statement at a concrete passthrough-fallback
manifest missing its required field. -/
theorem claim1_missing_input_witness :
    (BaseExecutor.execute
        { skill_id := strL "cap", name := strL "cap",
          input_schema := [{ name := strL "q" }],
          fallback := { strategy := FallbackStrategy.passthrough,
                        passthrough_field := some (strL "q") } }
        (fun _ => Except.ok []) (fun _ => Except.ok []) [] [] false).error =
      some (strL "Missing required input: " ++ strL "q") ∧
    (BaseExecutor.execute
        { skill_id := strL "cap", name := strL "cap",
          input_schema := [{ name := strL "q" }],
          fallback := { strategy := FallbackStrategy.passthrough,
                        passthrough_field := some (strL "q") } }
        (fun _ => Except.ok []) (fun _ => Except.ok []) [] [] false).status =
      (if fallbackYieldsFailure
          { strategy := FallbackStrategy.passthrough,
            passthrough_field := some (strL "q") } then SkillStatus.failure
       else SkillStatus.skipped) :=
  claim1_missing_input _ _ _ _ _ _ _ rfl

/-- C1 counterexample: with the default Skip fallback, a missing required
field q yields status Skipped, not the Failure the claim demands for
every manifest (the repository test suite asserts exactly this Skipped
outcome). -/
theorem claim1_counterexample :
    BaseExecutor.validateInputs [{ name := strL "q" }] [] =
        some (strL "Missing required input: q") ∧
    (BaseExecutor.execute
        { skill_id := strL "cap", name := strL "cap",
          input_schema := [{ name := strL "q" }] }
        (fun _ => Except.ok []) (fun _ => Except.ok []) [] [] false).status =
      SkillStatus.skipped ∧
    SkillStatus.skipped ≠ SkillStatus.failure :=
  ⟨rfl, rfl, by decide⟩

/-- C9: when any required input is missing, the invocation result is
entirely independent of both the real and the mock executor bodies:
neither is ever consulted. -/
theorem claim9_no_invocation_on_missing_input (m : SkillManifest)
    (inputs : List (List Char × Val)) (sid : List Char) (mm : Bool) (e : List Char)
    (impl1 mock1 impl2 mock2 : List (List Char × Val) → Except PyExc (List (List Char × Val)))
    (h : BaseExecutor.validateInputs m.input_schema inputs = some e) :
    BaseExecutor.execute m impl1 mock1 inputs sid mm =
      BaseExecutor.execute m impl2 mock2 inputs sid mm := by
  rw [execute_of_validation_failure m impl1 mock1 inputs sid mm e h,
      execute_of_validation_failure m impl2 mock2 inputs sid mm e h]

/-- C9 witness: two manifestly different body pairs produce the same
result when the required field q is missing. -/
theorem claim9_no_invocation_witness :
    BaseExecutor.execute
        { skill_id := strL "cap", name := strL "cap",
          input_schema := [{ name := strL "q" }] }
        (fun _ => Except.ok [(strL "a", Val.vint 1)])
        (fun _ => Except.error (PyExc.exc (strL "boom"))) [] [] false =
      BaseExecutor.execute
        { skill_id := strL "cap", name := strL "cap",
          input_schema := [{ name := strL "q" }] }
        (fun _ => Except.error (PyExc.timeoutErr (strL "late")))
        (fun _ => Except.ok []) [] [] false :=
  claim9_no_invocation_on_missing_input _ _ _ _ _ _ _ _ _ rfl

/-- C7: a failing invocation under a DefaultValue fallback with a
non-null configured value always returns status Failure with the wrapped
default as output: the value itself when it is a dict, else the value
under the result key. -/
theorem claim7_default_value_fallback (m : SkillManifest)
    (inputs : List (List Char × Val)) (sid : List Char) (mm : Bool) (e : PyExc) (V : Val)
    (hstrat : m.fallback.strategy = FallbackStrategy.default_value)
    (hval : m.fallback.default_value = V)
    (hnn : vIsNone V = false) :
    (BaseExecutor.execute m (fun _ => Except.error e) (fun _ => Except.error e)
        inputs sid mm).status = SkillStatus.failure ∧
    (BaseExecutor.execute m (fun _ => Except.error e) (fun _ => Except.error e)
        inputs sid mm).output = BaseExecutor.dvWrap V := by
  have hfb : ∀ err, BaseExecutor.handleFallback m sid err =
      { skill_id := m.skill_id, step_id := sid, status := SkillStatus.failure,
        output := BaseExecutor.dvWrap V, error := some err, latency_ms := 0,
        metadata := [(strL "fallback_strategy", Val.vstr (strL "default_value"))] } := by
    intro err
    unfold BaseExecutor.handleFallback
    rw [hstrat, hval]
    simp [hnn]
  cases hv : BaseExecutor.validateInputs m.input_schema inputs with
  | some verr =>
    rw [execute_of_validation_failure m _ _ inputs sid mm verr hv, hfb]
    exact ⟨rfl, rfl⟩
  | none =>
    rw [execute_of_dispatch_failure m e inputs sid mm hv, hfb]
    exact ⟨rfl, rfl⟩

/-- C7 witness: the spec example default, a bare string, comes back as
output result fallback data with status Failure. -/
theorem claim7_default_value_witness :
    (BaseExecutor.execute
        { skill_id := strL "cap", name := strL "cap",
          input_schema := [{ name := strL "q" }],
          fallback := { strategy := FallbackStrategy.default_value,
                        default_value := Val.vstr (strL "fallback_data") } }
        (fun _ => Except.error (PyExc.exc (strL "boom")))
        (fun _ => Except.error (PyExc.exc (strL "boom")))
        [(strL "q", Val.vstr (strL "hi"))] [] false).status = SkillStatus.failure ∧
    (BaseExecutor.execute
        { skill_id := strL "cap", name := strL "cap",
          input_schema := [{ name := strL "q" }],
          fallback := { strategy := FallbackStrategy.default_value,
                        default_value := Val.vstr (strL "fallback_data") } }
        (fun _ => Except.error (PyExc.exc (strL "boom")))
        (fun _ => Except.error (PyExc.exc (strL "boom")))
        [(strL "q", Val.vstr (strL "hi"))] [] false).output =
      BaseExecutor.dvWrap (Val.vstr (strL "fallback_data")) :=
  claim7_default_value_fallback _ _ _ _ _ _ rfl rfl rfl

/-- C2 (amended): a condition whose substituted text contains the
emptiness phrase evaluates by re-resolving the raw left side of the
original condition text; a sequence or map is empty iff its length is
zero, and every other value (null included) counts as empty iff it is
falsy — so the number 0, the empty string and False all make the
condition true, not only null and empty containers. -/
theorem claim2_is_empty_condition (ctx : List (List Char × Val)) (cond X : List Char)
    (fuel : Nat)
    (hcontains : containsSub (resolveStringVars cond ctx) (strL "is empty") = true)
    (hleft : pyTrim (beforeFirst cond (strL "is empty")) = X) :
    evalCond (fuel + 1) cond ctx =
      (match resolveReference X ctx with
       | Val.vlist xs => xs.isEmpty
       | Val.vdict d => d.isEmpty
       | v => !truthy v) := by
  unfold evalCond catchFalse evalCondTry
  simp only [hcontains, hleft, if_pos]

/-- C2 witness: an empty list output makes the emptiness condition true,
as the amended claim states for empty sequences. -/
theorem claim2_is_empty_witness :
    evalCond 5 (strL "${s.output.items} is empty")
        (FlowEngine.mkCtx []
          [(strL "s", Val.vdict [(strL "output", Val.vdict [(strL "items", Val.vlist [])]),
                                 (strL "status", Val.vstr (strL "success"))])]) =
      (match resolveReference (strL "${s.output.items}")
          (FlowEngine.mkCtx []
            [(strL "s", Val.vdict [(strL "output", Val.vdict [(strL "items", Val.vlist [])]),
                                   (strL "status", Val.vstr (strL "success"))])]) with
       | Val.vlist xs => xs.isEmpty
       | Val.vdict d => d.isEmpty
       | v => !truthy v) :=
  claim2_is_empty_condition
    (FlowEngine.mkCtx []
      [(strL "s", Val.vdict [(strL "output", Val.vdict [(strL "items", Val.vlist [])]),
                             (strL "status", Val.vstr (strL "success"))])])
    (strL "${s.output.items} is empty") (strL "${s.output.items}") 4 rfl rfl

/-- C2 counterexample: a recorded scalar output 0 resolves to the number
zero, yet its emptiness condition evaluates to true, where the claim
demands false for every non-empty scalar. -/
theorem claim2_counterexample :
    resolveReference (strL "${s.output.count}")
        (FlowEngine.mkCtx []
          [(strL "s", Val.vdict [(strL "output", Val.vdict [(strL "count", Val.vint 0)]),
                                 (strL "status", Val.vstr (strL "success"))])]) =
      Val.vint 0 ∧
    evalCond 5 (strL "${s.output.count} is empty")
        (FlowEngine.mkCtx []
          [(strL "s", Val.vdict [(strL "output", Val.vdict [(strL "count", Val.vint 0)]),
                                 (strL "status", Val.vstr (strL "success"))])]) = true :=
  ⟨rfl, rfl⟩

/-- C8: a condition whose substituted text contains the equality operator
(and no emptiness phrase and no inequality operator) is true iff the two
sides of the first operator occurrence, trimmed of whitespace and
surrounding quotes, are equal as strings; the inequality form over the
same cleaned sides evaluates to the exact negation. -/
theorem claim8_string_comparison (ctx : List (List Char × Val))
    (cond cond2 l r l2 r2 : List Char) (fuel : Nat)
    (h1 : containsSub (resolveStringVars cond ctx) (strL "is empty") = false)
    (h2 : containsSub (resolveStringVars cond ctx) (strL "is not empty") = false)
    (h3 : containsSub (resolveStringVars cond ctx) (strL "!=") = false)
    (h4 : splitFirst (strL "==") (resolveStringVars cond ctx) = some (l, r))
    (h5 : containsSub (resolveStringVars cond2 ctx) (strL "is empty") = false)
    (h6 : containsSub (resolveStringVars cond2 ctx) (strL "is not empty") = false)
    (h7 : splitFirst (strL "!=") (resolveStringVars cond2 ctx) = some (l2, r2))
    (h8 : cleanSide l2 = cleanSide l) (h9 : cleanSide r2 = cleanSide r) :
    evalCond (fuel + 1) cond ctx = decide (cleanSide l = cleanSide r) ∧
    evalCond (fuel + 1) cond2 ctx = !decide (cleanSide l = cleanSide r) := by
  have hc4 : containsSub (resolveStringVars cond ctx) (strL "==") = true := by
    unfold containsSub
    rw [h4]
    rfl
  have hc7 : containsSub (resolveStringVars cond2 ctx) (strL "!=") = true := by
    unfold containsSub
    rw [h7]
    rfl
  have hb4 : beforeFirst (resolveStringVars cond ctx) (strL "==") = l := by
    unfold beforeFirst
    rw [h4]
  have ha4 : afterFirst (resolveStringVars cond ctx) (strL "==") = r := by
    unfold afterFirst
    rw [h4]
  have hb7 : beforeFirst (resolveStringVars cond2 ctx) (strL "!=") = l2 := by
    unfold beforeFirst
    rw [h7]
  have ha7 : afterFirst (resolveStringVars cond2 ctx) (strL "!=") = r2 := by
    unfold afterFirst
    rw [h7]
  constructor
  · unfold evalCond catchFalse evalCondTry
    simp only [h1, h2, h3, hc4, hb4, ha4, Bool.false_eq_true, if_false, if_pos]
  · unfold evalCond catchFalse evalCondTry
    simp only [h5, h6, hc7, hb7, ha7, Bool.false_eq_true, if_false, if_pos, h8, h9,
      ne_eq, decide_not]

/-- C8 witness: the spec example condition over a recorded genie step
whose output status is ok. -/
theorem claim8_string_comparison_witness :
    evalCond 5 (strL "${genie.output.status} == \"ok\"")
        (FlowEngine.mkCtx []
          [(strL "genie",
            Val.vdict [(strL "output", Val.vdict [(strL "status", Val.vstr (strL "ok"))]),
                       (strL "status", Val.vstr (strL "success"))])]) =
      decide (cleanSide (strL "ok ") = cleanSide (strL " \"ok\"")) ∧
    evalCond 5 (strL "${genie.output.status} != \"ok\"")
        (FlowEngine.mkCtx []
          [(strL "genie",
            Val.vdict [(strL "output", Val.vdict [(strL "status", Val.vstr (strL "ok"))]),
                       (strL "status", Val.vstr (strL "success"))])]) =
      !decide (cleanSide (strL "ok ") = cleanSide (strL " \"ok\"")) :=
  claim8_string_comparison _ _ _ _ _ _ _ 4 rfl rfl rfl rfl rfl rfl rfl rfl rfl

/-- C5: request references resolve to the request entry when present and
to null otherwise; a first path segment that is neither a top-level
context key nor a recorded step id resolves to null; and traversal
through a non-map value yields null. -/
theorem claim5_reference_resolution :
    (∀ (request steps : List (List Char × Val)) (ref X : List Char),
       pySplitCh (stripBraces ref) (Char.ofNat 46) = [strL "request", X] →
       resolveReference ref (FlowEngine.mkCtx request steps) =
         (assocGet request X).getD Val.vnone) ∧
    (∀ (request steps : List (List Char × Val)) (ref : List Char) (f : List Char)
        (rest : List (List Char)),
       pySplitCh (stripBraces ref) (Char.ofNat 46) = f :: rest →
       f ≠ strL "request" → f ≠ strL "steps" → assocContains steps f = false →
       resolveReference ref (FlowEngine.mkCtx request steps) = Val.vnone) ∧
    (∀ (v : Val) (p : List Char) (ps : List (List Char)),
       (∀ d, v ≠ Val.vdict d) → travVal v (p :: ps) = Val.vnone) := by
  refine ⟨?_, ?_, ?_⟩
  · intro request steps ref X hparts
    unfold resolveReference
    simp only [hparts]
    have hreq : assocContains (FlowEngine.mkCtx request steps) (strL "request") = true := by
      simp [FlowEngine.mkCtx, assocContains, assocGet]
    simp only [hreq, if_pos]
    show travVal (Val.vdict (FlowEngine.mkCtx request steps)) [strL "request", X] = _
    have hget : assocGet (FlowEngine.mkCtx request steps) (strL "request") =
        some (Val.vdict request) := by
      simp [FlowEngine.mkCtx, assocGet]
    simp only [travVal, hget]
    cases hx : assocGet request X with
    | some v => simp [travVal, hx]
    | none => simp [travVal, hx]
  · intro request steps ref f rest hparts hf1 hf2 hcont
    unfold resolveReference
    simp only [hparts]
    have hnc : assocContains (FlowEngine.mkCtx request steps) f = false := by
      have e1 : ¬ (strL "request" = f) := fun h => hf1 h.symm
      have e2 : ¬ (strL "steps" = f) := fun h => hf2 h.symm
      simp [FlowEngine.mkCtx, assocContains, assocGet, e1, e2]
    have hsteps : assocGet (FlowEngine.mkCtx request steps) (strL "steps") =
        some (Val.vdict steps) := by
      have e3 : ¬ (strL "request" = strL "steps") := by decide
      simp [FlowEngine.mkCtx, assocGet, e3]
    have hnone : assocGet steps f = none := by
      cases hg : assocGet steps f with
      | none => rfl
      | some v =>
        rw [assocContains, hg] at hcont
        simp at hcont
    simp only [hnc, Bool.false_eq_true, if_false, hsteps, hnone]
  · intro v p ps h
    cases v with
    | vdict d => exact absurd rfl (h d)
    | vnone => rfl
    | vbool b => rfl
    | vint i => rfl
    | vstr s => rfl
    | vlist xs => rfl

/-- C5 witness: a present request key, an unknown step namespace, and a
traversal into a scalar, each at concrete inputs. -/
theorem claim5_reference_resolution_witness :
    resolveReference (strL "${request.q}")
        (FlowEngine.mkCtx [(strL "q", Val.vstr (strL "hi"))] []) =
      (assocGet [(strL "q", Val.vstr (strL "hi"))] (strL "q")).getD Val.vnone ∧
    resolveReference (strL "${missing.output.x}")
        (FlowEngine.mkCtx [(strL "q", Val.vstr (strL "hi"))] []) = Val.vnone ∧
    travVal (Val.vint 3) [strL "x"] = Val.vnone := by
  refine ⟨claim5_reference_resolution.1 _ _ _ _ rfl, ?_, ?_⟩
  · exact claim5_reference_resolution.2.1 _ _ _ _ _ rfl (by decide) (by decide) rfl
  · exact claim5_reference_resolution.2.2 _ _ [] (by intro d h; cases h)

/-- C3: an unknown flow id yields the immediate failure result naming the
missing flow, with no step results and an empty response; a registered
flow always yields a flow-level Success status, whatever the individual
steps did. -/
theorem claim3_flow_lookup :
    (∀ (reg : SkillRegistry) (beh : ExecBehavior) (fuel : Nat) (fid : List Char)
        (request : List (List Char × Val)) (mmo : Option Bool) (emm : Bool),
       reg.get_flow fid = none →
       FlowEngine.execute_flow reg beh fuel fid request mmo emm =
         { flow_id := fid, status := SkillStatus.failure,
           error := some (strL "Flow not found: " ++ fid) }) ∧
    (∀ (reg : SkillRegistry) (beh : ExecBehavior) (fuel : Nat) (fid : List Char)
        (request : List (List Char × Val)) (mmo : Option Bool) (emm : Bool)
        (flow : FlowDefinition),
       reg.get_flow fid = some flow →
       (FlowEngine.execute_flow reg beh fuel fid request mmo emm).status =
         SkillStatus.success) := by
  constructor
  · intro reg beh fuel fid request mmo emm h
    unfold FlowEngine.execute_flow
    simp only [h]
  · intro reg beh fuel fid request mmo emm flow h
    unfold FlowEngine.execute_flow
    simp only [h]

/-- C3 witness: the empty registry misses every flow id; a registry
holding one empty flow returns Success for it. -/
theorem claim3_flow_lookup_witness :
    FlowEngine.execute_flow { skills := [], flows := [] }
        { impl := fun _ _ => Except.ok [], mock := fun _ _ => Except.ok [] }
        5 (strL "f") [] none false =
      { flow_id := strL "f", status := SkillStatus.failure,
        error := some (strL "Flow not found: " ++ strL "f") } ∧
    (FlowEngine.execute_flow
        { skills := [],
          flows := [(strL "f", { flow_id := strL "f", name := strL "f" })] }
        { impl := fun _ _ => Except.ok [], mock := fun _ _ => Except.ok [] }
        5 (strL "f") [] none false).status = SkillStatus.success :=
  ⟨claim3_flow_lookup.1 _ _ _ _ _ _ _ rfl, claim3_flow_lookup.2 _ _ _ _ _ _ _ _ rfl⟩

/-! Machinery for the passthrough fallback claims. -/

/-- The phase-one passthrough marker the lifecycle emits on failure. -/
def markerOutput (F : List Char) : List (List Char × Val) :=
  [(strL "_fallback", Val.vstr (strL "passthrough")), (strL "_field", Val.vstr F)]

theorem execute_passthrough_marker (m : SkillManifest)
    (impl mock : List (List Char × Val) → Except PyExc (List (List Char × Val)))
    (inputs : List (List Char × Val)) (sid : List Char) (mm : Bool)
    (e1 e2 : PyExc) (F : List Char)
    (hstrat : m.fallback.strategy = FallbackStrategy.passthrough)
    (hfield : m.fallback.passthrough_field = some F)
    (hFne : F.isEmpty = false)
    (himpl : impl inputs = Except.error e1)
    (hmock : mock inputs = Except.error e2) :
    ∃ errX, BaseExecutor.execute m impl mock inputs sid mm =
      { skill_id := m.skill_id, step_id := sid, status := SkillStatus.failure,
        output := markerOutput F, error := some errX, latency_ms := 0,
        metadata := [(strL "fallback_strategy", Val.vstr (strL "passthrough"))] } := by
  have hfb : ∀ err, BaseExecutor.handleFallback m sid err =
      { skill_id := m.skill_id, step_id := sid, status := SkillStatus.failure,
        output := markerOutput F, error := some err, latency_ms := 0,
        metadata := [(strL "fallback_strategy", Val.vstr (strL "passthrough"))] } := by
    intro err
    unfold BaseExecutor.handleFallback
    rw [hstrat, hfield]
    simp [pfTruthy, hFne, markerOutput]
  cases hv : BaseExecutor.validateInputs m.input_schema inputs with
  | some verr =>
    exact ⟨verr, by rw [execute_of_validation_failure m impl mock inputs sid mm verr hv,
      hfb verr]⟩
  | none =>
    cases hmm : (mm && m.mock_enabled) with
    | true =>
      refine ⟨excText e2, ?_⟩
      unfold BaseExecutor.execute
      rw [hv]
      simp only [hmm, if_pos, hmock]
      exact hfb (excText e2)
    | false =>
      refine ⟨excText e1, ?_⟩
      unfold BaseExecutor.execute
      rw [hv]
      simp only [hmm, Bool.false_eq_true, if_false, himpl]
      exact hfb (excText e1)

theorem applyPassthrough_hit (m : SkillManifest) (resolved : List (List Char × Val))
    (r : SkillResult) (F : List Char) (v : Val)
    (hst : r.status = SkillStatus.failure)
    (hout : r.output = markerOutput F)
    (hv : assocGet resolved F = some v) :
    FlowEngine.applyPassthrough m resolved r =
      { r with output := [(FlowEngine.firstOutputField m, v)] } := by
  have hne : ¬ (strL "_fallback" = strL "_field") := by decide
  have hcont : assocContains resolved F = true := by
    simp [assocContains, hv]
  unfold FlowEngine.applyPassthrough
  rw [hst, hout]
  simp [markerOutput, assocGet, optValEqStr, hne, hcont, hv]

theorem applyPassthrough_miss (m : SkillManifest) (resolved : List (List Char × Val))
    (r : SkillResult) (F : List Char)
    (hout : r.output = markerOutput F)
    (hv : assocGet resolved F = none) :
    FlowEngine.applyPassthrough m resolved r = r := by
  have hne : ¬ (strL "_fallback" = strL "_field") := by decide
  have hcont : assocContains resolved F = false := by
    simp [assocContains, hv]
  unfold FlowEngine.applyPassthrough
  rw [hout]
  cases hst : r.status <;>
    simp [markerOutput, assocGet, optValEqStr, hne, hcont]

theorem procStep_run (reg : SkillRegistry) (beh : ExecBehavior) (fuel : Nat) (mm : Bool)
    (request : List (List Char × Val)) (results : List (List Char × SkillResult))
    (stepsCtx : List (List Char × Val)) (step : FlowStep) (m : SkillManifest)
    (hrun : FlowEngine.stepSkipped fuel step (FlowEngine.mkCtx request stepsCtx) = false)
    (hskill : reg.get_skill step.skill = some m) :
    FlowEngine.procStep reg beh fuel mm request (results, stepsCtx) step =
      (assocSet results step.id
         (FlowEngine.applyPassthrough m
           (FlowEngine.resolveStepInputs step (FlowEngine.mkCtx request stepsCtx))
           (BaseExecutor.execute m (beh.impl m) (beh.mock m)
             (FlowEngine.resolveStepInputs step (FlowEngine.mkCtx request stepsCtx))
             step.id mm)),
       assocSet stepsCtx step.id
         (Val.vdict
           [(strL "output",
             Val.vdict (FlowEngine.applyPassthrough m
               (FlowEngine.resolveStepInputs step (FlowEngine.mkCtx request stepsCtx))
               (BaseExecutor.execute m (beh.impl m) (beh.mock m)
                 (FlowEngine.resolveStepInputs step (FlowEngine.mkCtx request stepsCtx))
                 step.id mm)).output),
            (strL "status",
             Val.vstr (statusStr (FlowEngine.applyPassthrough m
               (FlowEngine.resolveStepInputs step (FlowEngine.mkCtx request stepsCtx))
               (BaseExecutor.execute m (beh.impl m) (beh.mock m)
                 (FlowEngine.resolveStepInputs step (FlowEngine.mkCtx request stepsCtx))
                 step.id mm)).status))])) := by
  unfold FlowEngine.procStep
  simp only [hrun, Bool.false_eq_true, if_false, hskill]

/-- C4: when a step invocation fails under a Passthrough fallback naming
a field present in the resolved inputs, the recorded result keeps status
Failure and its output is exactly the first declared output field of the
manifest (the generic result key when none is declared) bound to that
resolved input value. -/
theorem claim4_passthrough_substitution (reg : SkillRegistry) (beh : ExecBehavior)
    (fuel : Nat) (mm : Bool) (request : List (List Char × Val))
    (results : List (List Char × SkillResult)) (stepsCtx : List (List Char × Val))
    (step : FlowStep) (m : SkillManifest) (F : List Char) (e1 e2 : PyExc) (v : Val)
    (hskill : reg.get_skill step.skill = some m)
    (hstrat : m.fallback.strategy = FallbackStrategy.passthrough)
    (hfield : m.fallback.passthrough_field = some F)
    (hFne : F.isEmpty = false)
    (hrun : FlowEngine.stepSkipped fuel step (FlowEngine.mkCtx request stepsCtx) = false)
    (himpl : beh.impl m (FlowEngine.resolveStepInputs step
        (FlowEngine.mkCtx request stepsCtx)) = Except.error e1)
    (hmock : beh.mock m (FlowEngine.resolveStepInputs step
        (FlowEngine.mkCtx request stepsCtx)) = Except.error e2)
    (hv : assocGet (FlowEngine.resolveStepInputs step
        (FlowEngine.mkCtx request stepsCtx)) F = some v) :
    ∃ r : SkillResult,
      assocGet (FlowEngine.procStep reg beh fuel mm request (results, stepsCtx) step).fst
          step.id = some r ∧
      r.status = SkillStatus.failure ∧
      r.output = [(FlowEngine.firstOutputField m, v)] := by
  obtain ⟨errX, hexec⟩ := execute_passthrough_marker m (beh.impl m) (beh.mock m)
    (FlowEngine.resolveStepInputs step (FlowEngine.mkCtx request stepsCtx))
    step.id mm e1 e2 F hstrat hfield hFne himpl hmock
  have hR : FlowEngine.applyPassthrough m
      (FlowEngine.resolveStepInputs step (FlowEngine.mkCtx request stepsCtx))
      (BaseExecutor.execute m (beh.impl m) (beh.mock m)
        (FlowEngine.resolveStepInputs step (FlowEngine.mkCtx request stepsCtx))
        step.id mm) =
      { skill_id := m.skill_id, step_id := step.id, status := SkillStatus.failure,
        output := [(FlowEngine.firstOutputField m, v)], error := some errX,
        latency_ms := 0,
        metadata := [(strL "fallback_strategy", Val.vstr (strL "passthrough"))] } := by
    rw [hexec, applyPassthrough_hit m _ _ F v rfl rfl hv]
  refine ⟨{ skill_id := m.skill_id, step_id := step.id, status := SkillStatus.failure,
            output := [(FlowEngine.firstOutputField m, v)], error := some errX,
            latency_ms := 0,
            metadata := [(strL "fallback_strategy", Val.vstr (strL "passthrough"))] },
          ?_, rfl, rfl⟩
  simp only [procStep_run reg beh fuel mm request results stepsCtx step m hrun hskill, hR]
  exact assocGet_assocSet_self _ _ _

/-- C4 witness: a failing skill with passthrough field q over resolved
inputs carrying q substitutes the first declared output field. -/
theorem claim4_passthrough_substitution_witness :
    ∃ r : SkillResult,
      assocGet (FlowEngine.procStep
          { skills := [(strL "cap",
              { skill_id := strL "cap", name := strL "cap",
                output_schema := [{ name := strL "answer" }],
                fallback := { strategy := FallbackStrategy.passthrough,
                              passthrough_field := some (strL "q") } })],
            flows := [] }
          { impl := fun _ _ => Except.error (PyExc.exc (strL "boom")),
            mock := fun _ _ => Except.error (PyExc.exc (strL "boom")) }
          5 false [(strL "q", Val.vstr (strL "hi"))] ([], [])
          { skill := strL "cap", id := strL "s1",
            inputs := [{ field := strL "q",
                         reference := some (strL "${request.q}") }] }).fst
        (strL "s1") = some r ∧
      r.status = SkillStatus.failure ∧
      r.output = [(FlowEngine.firstOutputField
          { skill_id := strL "cap", name := strL "cap",
            output_schema := [{ name := strL "answer" }],
            fallback := { strategy := FallbackStrategy.passthrough,
                          passthrough_field := some (strL "q") } },
        Val.vstr (strL "hi"))] :=
  claim4_passthrough_substitution _ _ _ _ _ _ _ _ _ _ _ _ _
    rfl rfl rfl rfl rfl rfl rfl rfl

/-- C10: when a step invocation fails under a Passthrough fallback naming
a field absent from the resolved inputs, the phase-one marker dict is
recorded unchanged as the step output, both in the step-result table and
in the execution context record that later references read. -/
theorem claim10_passthrough_marker_recorded (reg : SkillRegistry) (beh : ExecBehavior)
    (fuel : Nat) (mm : Bool) (request : List (List Char × Val))
    (results : List (List Char × SkillResult)) (stepsCtx : List (List Char × Val))
    (step : FlowStep) (m : SkillManifest) (F : List Char) (e1 e2 : PyExc)
    (hskill : reg.get_skill step.skill = some m)
    (hstrat : m.fallback.strategy = FallbackStrategy.passthrough)
    (hfield : m.fallback.passthrough_field = some F)
    (hFne : F.isEmpty = false)
    (hrun : FlowEngine.stepSkipped fuel step (FlowEngine.mkCtx request stepsCtx) = false)
    (himpl : beh.impl m (FlowEngine.resolveStepInputs step
        (FlowEngine.mkCtx request stepsCtx)) = Except.error e1)
    (hmock : beh.mock m (FlowEngine.resolveStepInputs step
        (FlowEngine.mkCtx request stepsCtx)) = Except.error e2)
    (hmiss : assocGet (FlowEngine.resolveStepInputs step
        (FlowEngine.mkCtx request stepsCtx)) F = none) :
    ∃ r : SkillResult,
      assocGet (FlowEngine.procStep reg beh fuel mm request (results, stepsCtx) step).fst
          step.id = some r ∧
      r.status = SkillStatus.failure ∧
      r.output = markerOutput F ∧
      assocGet (FlowEngine.procStep reg beh fuel mm request (results, stepsCtx) step).snd
          step.id =
        some (Val.vdict [(strL "output", Val.vdict (markerOutput F)),
                         (strL "status", Val.vstr (strL "failure"))]) := by
  obtain ⟨errX, hexec⟩ := execute_passthrough_marker m (beh.impl m) (beh.mock m)
    (FlowEngine.resolveStepInputs step (FlowEngine.mkCtx request stepsCtx))
    step.id mm e1 e2 F hstrat hfield hFne himpl hmock
  have hR : FlowEngine.applyPassthrough m
      (FlowEngine.resolveStepInputs step (FlowEngine.mkCtx request stepsCtx))
      (BaseExecutor.execute m (beh.impl m) (beh.mock m)
        (FlowEngine.resolveStepInputs step (FlowEngine.mkCtx request stepsCtx))
        step.id mm) =
      { skill_id := m.skill_id, step_id := step.id, status := SkillStatus.failure,
        output := markerOutput F, error := some errX, latency_ms := 0,
        metadata := [(strL "fallback_strategy", Val.vstr (strL "passthrough"))] } := by
    rw [hexec, applyPassthrough_miss m _ _ F rfl hmiss]
  refine ⟨{ skill_id := m.skill_id, step_id := step.id, status := SkillStatus.failure,
            output := markerOutput F, error := some errX, latency_ms := 0,
            metadata := [(strL "fallback_strategy", Val.vstr (strL "passthrough"))] },
          ?_, rfl, rfl, ?_⟩
  · simp only [procStep_run reg beh fuel mm request results stepsCtx step m hrun hskill, hR]
    exact assocGet_assocSet_self _ _ _
  · simp only [procStep_run reg beh fuel mm request results stepsCtx step m hrun hskill, hR]
    exact assocGet_assocSet_self _ _ _

/-- C10 witness: a failing skill with passthrough field q and no q among
the resolved inputs records the raw marker dict in both tables. -/
theorem claim10_passthrough_marker_witness :
    ∃ r : SkillResult,
      assocGet (FlowEngine.procStep
          { skills := [(strL "cap",
              { skill_id := strL "cap", name := strL "cap",
                output_schema := [{ name := strL "answer" }],
                fallback := { strategy := FallbackStrategy.passthrough,
                              passthrough_field := some (strL "q") } })],
            flows := [] }
          { impl := fun _ _ => Except.error (PyExc.exc (strL "boom")),
            mock := fun _ _ => Except.error (PyExc.exc (strL "boom")) }
          5 false [] ([], [])
          { skill := strL "cap", id := strL "s1" }).fst (strL "s1") = some r ∧
      r.status = SkillStatus.failure ∧
      r.output = markerOutput (strL "q") ∧
      assocGet (FlowEngine.procStep
          { skills := [(strL "cap",
              { skill_id := strL "cap", name := strL "cap",
                output_schema := [{ name := strL "answer" }],
                fallback := { strategy := FallbackStrategy.passthrough,
                              passthrough_field := some (strL "q") } })],
            flows := [] }
          { impl := fun _ _ => Except.error (PyExc.exc (strL "boom")),
            mock := fun _ _ => Except.error (PyExc.exc (strL "boom")) }
          5 false [] ([], [])
          { skill := strL "cap", id := strL "s1" }).snd (strL "s1") =
        some (Val.vdict [(strL "output", Val.vdict (markerOutput (strL "q"))),
                         (strL "status", Val.vstr (strL "failure"))]) :=
  claim10_passthrough_marker_recorded _ _ _ _ _ _ _ _ _ _ _ _
    rfl rfl rfl rfl rfl rfl rfl rfl

/-! Machinery for the fail-closed orchestration claim. -/

theorem procStep_fst_sets (reg : SkillRegistry) (beh : ExecBehavior) (fuel : Nat)
    (mm : Bool) (request : List (List Char × Val))
    (acc : List (List Char × SkillResult) × List (List Char × Val)) (step : FlowStep) :
    ∃ r, (FlowEngine.procStep reg beh fuel mm request acc step).fst =
      assocSet acc.fst step.id r := by
  unfold FlowEngine.procStep
  cases h : FlowEngine.stepSkipped fuel step (FlowEngine.mkCtx request acc.snd) with
  | true =>
    simp only [h, if_pos]
    exact ⟨_, rfl⟩
  | false =>
    simp only [h, Bool.false_eq_true, if_false]
    cases hs : reg.get_skill step.skill with
    | none =>
      simp only [hs]
      exact ⟨_, rfl⟩
    | some m =>
      simp only [hs]
      exact ⟨_, rfl⟩

theorem foldl_procStep_preserves (reg : SkillRegistry) (beh : ExecBehavior) (fuel : Nat)
    (mm : Bool) (request : List (List Char × Val)) (steps : List FlowStep) :
    ∀ acc k, assocContains acc.fst k = true →
      assocContains
        ((steps.foldl (FlowEngine.procStep reg beh fuel mm request) acc)).fst k = true := by
  induction steps with
  | nil =>
    intro acc k h
    simpa using h
  | cons s rest ih =>
    intro acc k h
    simp only [List.foldl_cons]
    apply ih
    obtain ⟨r, hr⟩ := procStep_fst_sets reg beh fuel mm request acc s
    rw [hr]
    exact assocContains_assocSet_mono _ _ _ _ h

theorem foldl_procStep_contains_of_mem (reg : SkillRegistry) (beh : ExecBehavior)
    (fuel : Nat) (mm : Bool) (request : List (List Char × Val)) (steps : List FlowStep) :
    ∀ acc (step : FlowStep), step ∈ steps →
      assocContains
        ((steps.foldl (FlowEngine.procStep reg beh fuel mm request) acc)).fst step.id =
        true := by
  induction steps with
  | nil =>
    intro acc step h
    simp at h
  | cons s rest ih =>
    intro acc step h
    rcases List.mem_cons.mp h with h1 | h2
    · subst h1
      simp only [List.foldl_cons]
      apply foldl_procStep_preserves
      obtain ⟨r, hr⟩ := procStep_fst_sets reg beh fuel mm request acc step
      rw [hr]
      exact assocContains_assocSet_self _ _ _
    · simp only [List.foldl_cons]
      exact ih _ step h2

/-- C6: condition evaluation is fail-closed and never aborts the flow:
an internal evaluation error (the only modelled one being the recursion
limit) is caught and yields false; a step whose truthy condition
evaluates to false is recorded as Skipped with the condition-not-met
reason in both tables; and a registered flow always returns a result
carrying a recorded entry for every one of its steps. -/
theorem claim6_fail_closed_conditions :
    (∀ (fuel : Nat) (cond : List Char) (ctx : List (List Char × Val)),
       evalCondTry ctx fuel cond = Except.error () → evalCond fuel cond ctx = false) ∧
    (∀ (reg : SkillRegistry) (beh : ExecBehavior) (fuel : Nat) (mm : Bool)
        (request : List (List Char × Val)) (results : List (List Char × SkillResult))
        (stepsCtx : List (List Char × Val)) (step : FlowStep) (c : List Char),
       step.condition = some c → c.isEmpty = false →
       evalCond fuel c (FlowEngine.mkCtx request stepsCtx) = false →
       assocGet (FlowEngine.procStep reg beh fuel mm request (results, stepsCtx) step).fst
           step.id =
         some { skill_id := step.skill, step_id := step.id, status := SkillStatus.skipped,
                output := [], error := none, latency_ms := 0,
                metadata := [(strL "reason", Val.vstr (strL "condition_not_met"))] } ∧
       assocGet (FlowEngine.procStep reg beh fuel mm request (results, stepsCtx) step).snd
           step.id = some FlowEngine.skippedEntry) ∧
    (∀ (reg : SkillRegistry) (beh : ExecBehavior) (fuel : Nat) (fid : List Char)
        (request : List (List Char × Val)) (mmo : Option Bool) (emm : Bool)
        (flow : FlowDefinition) (step : FlowStep),
       reg.get_flow fid = some flow → step ∈ flow.steps →
       assocContains
         (FlowEngine.execute_flow reg beh fuel fid request mmo emm).step_results
         step.id = true) := by
  refine ⟨?_, ?_, ?_⟩
  · intro fuel cond ctx h
    unfold evalCond catchFalse
    rw [h]
  · intro reg beh fuel mm request results stepsCtx step c hc hne hev
    have hskip : FlowEngine.stepSkipped fuel step (FlowEngine.mkCtx request stepsCtx) =
        true := by
      unfold FlowEngine.stepSkipped
      rw [hc]
      show (!c.isEmpty && !(evalCond fuel c (FlowEngine.mkCtx request stepsCtx))) = true
      rw [hne, hev]
      rfl
    unfold FlowEngine.procStep
    simp only [hskip, if_pos]
    exact ⟨assocGet_assocSet_self _ _ _, assocGet_assocSet_self _ _ _⟩
  · intro reg beh fuel fid request mmo emm flow step hflow hmem
    unfold FlowEngine.execute_flow
    simp only [hflow, Option.getD]
    exact foldl_procStep_contains_of_mem _ _ _ _ _ _ _ step hmem

/-- C6 witness: exhausted fuel errors and is caught as false; a concrete
unmet condition records a Skipped entry; a one-step flow carries an
entry for its step. -/
theorem claim6_fail_closed_witness :
    evalCond 0 (strL "x") [] = false ∧
    (assocGet (FlowEngine.procStep { skills := [], flows := [] }
          { impl := fun _ _ => Except.ok [], mock := fun _ _ => Except.ok [] }
          5 false [] ([], [])
          { skill := strL "cap", id := strL "s1",
            condition := some (strL "x == y") }).fst (strL "s1") =
        some { skill_id := strL "cap", step_id := strL "s1",
               status := SkillStatus.skipped, output := [], error := none,
               latency_ms := 0,
               metadata := [(strL "reason", Val.vstr (strL "condition_not_met"))] } ∧
      assocGet (FlowEngine.procStep { skills := [], flows := [] }
          { impl := fun _ _ => Except.ok [], mock := fun _ _ => Except.ok [] }
          5 false [] ([], [])
          { skill := strL "cap", id := strL "s1",
            condition := some (strL "x == y") }).snd (strL "s1") =
        some FlowEngine.skippedEntry) ∧
    assocContains
      (FlowEngine.execute_flow
        { skills := [],
          flows := [(strL "f",
            { flow_id := strL "f", name := strL "f",
              steps := [{ skill := strL "cap", id := strL "s1" }] })] }
        { impl := fun _ _ => Except.ok [], mock := fun _ _ => Except.ok [] }
        5 (strL "f") [] none false).step_results (strL "s1") = true :=
  ⟨claim6_fail_closed_conditions.1 0 (strL "x") [] rfl,
   claim6_fail_closed_conditions.2.1 _ _ _ _ _ _ _ _ _ rfl rfl rfl,
   claim6_fail_closed_conditions.2.2 _ _ _ _ _ _ _ _
     { skill := strL "cap", id := strL "s1" } rfl (List.Mem.head _)⟩

end AgentSkills
